import Mathlib

/-!
Shallow embedding of the stack/backend/driver resolution engine of the
Terraform-state inventory plugin (src/plugins/inventory/terraform.py).

Python values are modelled by the inductive type `Val` (JSON-shaped data plus
None/bool/int), Python dicts by insertion-ordered association lists, and
Python exceptions by `Except PyError`.  The network (requests.get) and the
base64+JSON decoding of state payloads are external effects, modelled as
explicit oracle parameters (`Fetch`, `Decode`).
-/

namespace TF

/-- A Python value as used by the plugin: None, bool, int, str, list, dict
(dict keys restricted to strings, as all dicts handled here come from JSON
or YAML configuration; host maps, whose keys are arbitrary values, are
modelled separately as association lists over `Val`). -/
inductive Val where
  | null : Val
  | bool (b : Bool) : Val
  | num (n : Int) : Val
  | str (s : String) : Val
  | list (xs : List Val) : Val
  | dict (kvs : List (String × Val)) : Val
  deriving Repr

mutual

/-- Structural equality on `Val`, mirroring Python `==` on these values. -/
def beqVal : Val → Val → Bool
  | .null, .null => true
  | .bool a, .bool b => a == b
  | .num a, .num b => a == b
  | .str a, .str b => a == b
  | .list xs, .list ys => beqValList xs ys
  | .dict xs, .dict ys => beqValDict xs ys
  | _, _ => false

def beqValList : List Val → List Val → Bool
  | [], [] => true
  | x :: xs, y :: ys => beqVal x y && beqValList xs ys
  | _, _ => false

def beqValDict : List (String × Val) → List (String × Val) → Bool
  | [], [] => true
  | (k1, v1) :: xs, (k2, v2) :: ys => k1 == k2 && beqVal v1 v2 && beqValDict xs ys
  | _, _ => false

end

instance : BEq Val := ⟨beqVal⟩

mutual

theorem beqVal_refl : ∀ v : Val, beqVal v v = true
  | .null => rfl
  | .bool b => by simp [beqVal]
  | .num n => by simp [beqVal]
  | .str s => by simp [beqVal]
  | .list xs => by simp [beqVal, beqValList_refl xs]
  | .dict xs => by simp [beqVal, beqValDict_refl xs]

theorem beqValList_refl : ∀ xs : List Val, beqValList xs xs = true
  | [] => rfl
  | x :: xs => by simp [beqValList, beqVal_refl x, beqValList_refl xs]

theorem beqValDict_refl : ∀ xs : List (String × Val), beqValDict xs xs = true
  | [] => rfl
  | (k, v) :: xs => by simp [beqValDict, beqVal_refl v, beqValDict_refl xs]

end

mutual

theorem beqVal_eq : ∀ {a b : Val}, beqVal a b = true → a = b
  | .null, .null, _ => rfl
  | .bool a, .bool b, h => by simp [beqVal] at h; simp [h]
  | .num a, .num b, h => by simp [beqVal] at h; simp [h]
  | .str a, .str b, h => by simp [beqVal] at h; simp [h]
  | .list xs, .list ys, h => by
      simp [beqVal] at h
      simp [beqValList_eq h]
  | .dict xs, .dict ys, h => by
      simp [beqVal] at h
      simp [beqValDict_eq h]

theorem beqValList_eq : ∀ {xs ys : List Val}, beqValList xs ys = true → xs = ys
  | [], [], _ => rfl
  | x :: xs, y :: ys, h => by
      simp [beqValList] at h
      obtain ⟨h1, h2⟩ := h
      rw [beqVal_eq h1, beqValList_eq h2]

theorem beqValDict_eq : ∀ {xs ys : List (String × Val)}, beqValDict xs ys = true → xs = ys
  | [], [], _ => rfl
  | (k1, v1) :: xs, (k2, v2) :: ys, h => by
      simp [beqValDict] at h
      obtain ⟨⟨hk, hv⟩, ht⟩ := h
      rw [hk, beqVal_eq hv, beqValDict_eq ht]

end

instance : DecidableEq Val := fun a b =>
  if h : beqVal a b = true then .isTrue (beqVal_eq h)
  else .isFalse (fun he => h (he ▸ beqVal_refl a))

instance : LawfulBEq Val where
  eq_of_beq := beqVal_eq
  rfl := beqVal_refl _

/-- Python truthiness (`if not x`) for the modelled values. -/
def truthy : Val → Bool
  | .null => false
  | .bool b => b
  | .num n => n != 0
  | .str s => s != ""
  | .list xs => !xs.isEmpty
  | .dict kvs => !kvs.isEmpty

/-- Python str() for the values that actually reach string formatting in the
plugin (scalars); containers keep an abstract placeholder rendering. -/
def pyStr : Val → String
  | .null => "None"
  | .bool true => "True"
  | .bool false => "False"
  | .num n => toString n
  | .str s => s
  | .list _ => "[...]"
  | .dict _ => "{...}"

/-! String-keyed Python dicts as insertion-ordered association lists. -/

/-- d.get(k) (no default): first binding of k, if any. -/
def sGet (d : List (String × Val)) (k : String) : Option Val :=
  (d.find? (fun p => p.1 == k)).map (·.2)

/-- d.get(k, dflt). -/
def sGetD (d : List (String × Val)) (k : String) (dflt : Val) : Val :=
  (sGet d k).getD dflt

/-- k in d. -/
def sMem (d : List (String × Val)) (k : String) : Bool :=
  d.any (fun p => p.1 == k)

/-- d[k] = v : replace in place when present, append otherwise (Python dict
assignment keeps the original insertion position of an existing key). -/
def sSet (d : List (String × Val)) (k : String) (v : Val) : List (String × Val) :=
  if sMem d k then d.map (fun p => if p.1 == k then (k, v) else p) else d ++ [(k, v)]

/-- d.update(d2) : successive assignments of the items of d2, in order. -/
def sUpdate (d d2 : List (String × Val)) : List (String × Val) :=
  d2.foldl (fun acc p => sSet acc p.1 p.2) d

/-- A Python exception: AnsibleError or any other exception kind
(KeyError, TypeError, AttributeError, generic Exception, ...), with message. -/
inductive PyError where
  | ansible (msg : String) : PyError
  | exc (msg : String) : PyError
  deriving Repr, DecidableEq

instance {ε α : Type} [DecidableEq ε] [DecidableEq α] : DecidableEq (Except ε α) := fun a b =>
  match a, b with
  | .ok x, .ok y =>
      if h : x = y then .isTrue (by rw [h])
      else .isFalse (fun he => h (by injection he))
  | .error x, .error y =>
      if h : x = y then .isTrue (by rw [h])
      else .isFalse (fun he => h (by injection he))
  | .ok x, .error y => .isFalse (fun he => Except.noConfusion he)
  | .error x, .ok y => .isFalse (fun he => Except.noConfusion he)

/-- v.get(k) where v must be a dict (Python raises AttributeError otherwise);
a missing key yields None. -/
def vGetAttr (v : Val) (k : String) : Except PyError Val :=
  match v with
  | .dict kvs => .ok (sGetD kvs k .null)
  | _ => .error (.exc ("AttributeError: no attribute get on " ++ pyStr v))

/-- v[k] for reading: KeyError when absent, TypeError when v is not a dict. -/
def vIndex (v : Val) (k : String) : Except PyError Val :=
  match v with
  | .dict kvs =>
      match sGet kvs k with
      | some x => .ok x
      | none => .error (.exc ("KeyError: " ++ k))
  | _ => .error (.exc "TypeError: value is not subscriptable")

/-! TerraformBackend.remove_prefix (terraform.py lines 457-460).
The source calls Python str.lstrip, which removes from the left every
character that belongs to the character SET of its argument, not the
argument as a prefix string. -/

/-- Python str.lstrip over explicit character lists: drop leading characters
belonging to chars. -/
def lstripChars (chars : List Char) : List Char → List Char
  | [] => []
  | c :: rest => if c ∈ chars then lstripChars chars rest else c :: rest

/-- Python s.lstrip(chars) on strings. -/
def lstrip (s chars : String) : String :=
  String.mk (lstripChars chars.data s.data)

/-- TerraformBackend.remove_prefix: `[ item.lstrip(prefix) for item in lst ]`. -/
def remove_prefix (lst : List String) (pfx : String) : List String :=
  lst.map (fun item => lstrip item pfx)

/-! Regular expressions, as used by TerraformStack._expand_paths
(terraform.py lines 372-379): `re.compile(name)` then `filter(r.match, ...)`.
Python re.match anchors at the start of the string and succeeds when SOME
prefix of the string is in the pattern language (not necessarily all of it).
The pattern sublanguage modelled covers the constructs the plugin's stack
name patterns use: ordinary characters, the dot wildcard, and the star
repetition; any other metacharacter is rejected at compile time. -/

inductive Regex where
  | emp : Regex
  | eps : Regex
  | chr (c : Char) : Regex
  | dot : Regex
  | cat (a b : Regex) : Regex
  | alt (a b : Regex) : Regex
  | star (a : Regex) : Regex
  deriving Repr, DecidableEq

/-- Does the regex accept the empty string? -/
def nullable : Regex → Bool
  | .emp => false
  | .eps => true
  | .chr _ => false
  | .dot => false
  | .cat a b => nullable a && nullable b
  | .alt a b => nullable a || nullable b
  | .star _ => true

/-- Brzozowski derivative with respect to one character. -/
def rderiv : Regex → Char → Regex
  | .emp, _ => .emp
  | .eps, _ => .emp
  | .chr c, x => if x = c then .eps else .emp
  | .dot, _ => .eps
  | .cat a b, x =>
      if nullable a then .alt (.cat (rderiv a x) b) (rderiv b x)
      else .cat (rderiv a x) b
  | .alt a b, x => .alt (rderiv a x) (rderiv b x)
  | .star a, x => .cat (rderiv a x) (.star a)

/-- Full-match of a regex against a character list, via derivatives. -/
def matchesExact (r : Regex) : List Char → Bool
  | [] => nullable r
  | c :: rest => matchesExact (rderiv r c) rest

/-- Python re.match semantics: anchored at the start, some prefix of the
string (possibly empty, possibly all of it) is in the pattern language. -/
def reMatchB (r : Regex) (s : String) : Bool :=
  (List.range (s.data.length + 1)).any (fun n => matchesExact r (s.data.take n))

/-- Compilation of the pattern strings the plugin uses, mirroring re.compile
on the supported sublanguage: a sequence of atoms (ordinary character or
dot), each optionally followed by a star; unsupported metacharacters are a
compile error. -/
def reCompileL : List Char → Except String Regex
  | [] => .ok .eps
  | c :: '*' :: rest2 =>
      if c ∈ ['(', ')', '|', '[', ']', '+', '?', '\\', '^', '$', '*'] then
        .error ("unsupported regex construct: " ++ String.mk [c])
      else
        (reCompileL rest2).map (fun r => .cat (.star (if c = '.' then .dot else .chr c)) r)
  | c :: rest =>
      if c ∈ ['(', ')', '|', '[', ']', '+', '?', '\\', '^', '$', '*'] then
        .error ("unsupported regex construct: " ++ String.mk [c])
      else
        (reCompileL rest).map (fun r => .cat (if c = '.' then .dot else .chr c) r)

/-- re.compile over strings. -/
def reCompile (s : String) : Except String Regex :=
  reCompileL s.data

/-- The filtering core of TerraformStack._expand_paths:
`list(filter(r.match, all_stacks))`. -/
def filter_match (r : Regex) (all_stacks : List String) : List String :=
  all_stacks.filter (fun s => reMatchB r s)

/-! The Consul backend (class TerraformConsul, terraform.py lines 469-592).
The HTTP layer (requests.get + json.loads of the response text) is an
oracle `Fetch`; the base64-then-JSON decoding of one state value is an
oracle `Decode`.  The per-object response cache is threaded explicitly. -/

/-- The backend-internal response cache: URL to cached value. -/
abbrev Cache := List (String × Val)

/-- Outcome of one requests.get call: either the call raised, or a response
with a status code, reason, raw text and the result of json.loads on the
text. -/
inductive FetchResult where
  | exc (msg : String) : FetchResult
  | resp (status : Nat) (reason text : String) (body : Except String Val) : FetchResult

/-- The network oracle: URL and query params to a fetch outcome. -/
abbrev Fetch := String → List (String × Val) → FetchResult

/-- The base64.b64decode + json.loads composite on one state value. -/
abbrev Decode := String → Except String Val

/-- d[k] as an Except: KeyError when the key is absent. -/
def sIndex (d : List (String × Val)) (k : String) : Except PyError Val :=
  match sGet d k with
  | some v => .ok v
  | none => .error (.exc ("KeyError: " ++ k))

/-- TerraformPlugin.default_backend_conf (lines 141-144). -/
def default_backend_conf : List (String × Val) :=
  [("name", .null), ("backend", .str "local")]

/-- TerraformConsul.default_config (lines 472-481). -/
def consul_default_config : List (String × Val) :=
  [("type", .null), ("prefix", .str "/terraform/state/"),
   ("protocol", .str "http"), ("host", .str "127.0.0.1"),
   ("port", .str "8600"), ("version", .str "1"), ("token", .null)]

/-- A TerraformConsul object: its name and merged configuration. -/
structure ConsulB where
  name : String
  config : List (String × Val)
  deriving Repr

/-- TerraformBackend.__init__ + get_config for the Consul subclass:
conf = {}; conf.update(default_config); conf.update(base). -/
def consul_init (name : String) (base : List (String × Val)) : ConsulB :=
  ⟨name, sUpdate (sUpdate [] consul_default_config) base⟩

/-- TerraformConsul.get_url (lines 483-489): percent-formatting of the
protocol, host, port, version config entries and the key. -/
def get_url (b : ConsulB) (key : Val) : Except PyError String := do
  let proto ← sIndex b.config "protocol"
  let host ← sIndex b.config "host"
  let port ← sIndex b.config "port"
  let version ← sIndex b.config "version"
  pure (pyStr proto ++ "://" ++ pyStr host ++ ":" ++ pyStr port ++ "/v" ++
    pyStr version ++ "/kv" ++ pyStr key)

/-- TerraformConsul.kv_get (lines 566-592): a requests.get call; an exception
becomes an AnsibleError, a 200 response is json-decoded, any other status is
an AnsibleError. -/
def kv_get (fetch : Fetch) (url : String) (params : List (String × Val)) :
    Except PyError Val :=
  match fetch url params with
  | .exc e => .error (.ansible ("Could not fetch url " ++ url ++ ", got error: " ++ e))
  | .resp status reason text body =>
      if status = 200 then
        match body with
        | .ok v => .ok v
        | .error e => .error (.exc ("JSONDecodeError: " ++ e))
      else
        .error (.ansible ("Bad HTTP response, got: " ++ toString status ++ reason ++
          ": " ++ toString status ++ " on " ++ url ++ ": " ++ text))

/-- The payload loop of TerraformConsul.get_resources (lines 509-534): walk
the entries; an entry with a falsy Value field is skipped with a printed
message; the first entry with a truthy Value is decoded and its resources
field (None when absent) is the result; decoding failures raise. -/
def resourcesLoop (decode : Decode) : List Val → List String × Except PyError (Option Val)
  | [] => ([], .ok none)
  | e :: rest =>
      match vGetAttr e "Key" with
      | .error err => ([], .error err)
      | .ok _ =>
          match vGetAttr e "Value" with
          | .error err => ([], .error err)
          | .ok v =>
              if truthy v = false then
                let (ws, r) := resourcesLoop decode rest
                ("Missing stack data ..." :: ws, r)
              else
                match v with
                | .str s =>
                    match decode s with
                    | .error de => ([], .error (.exc de))
                    | .ok (.dict d) => ([], .ok (some (sGetD d "resources" .null)))
                    | .ok _ => ([], .error (.exc "AttributeError: decoded payload is not a dict"))
                | _ => ([], .error (.exc "TypeError: b64decode argument"))

/-- Result of one backend method call: the returned value or exception, the
cache afterwards, how many HTTP fetches were performed, and the printed
messages. -/
structure BkRes where
  res : Except PyError Val
  cache : Cache
  fetches : Nat
  warns : List String
  deriving Repr

/-- TerraformConsul.get_resources (lines 491-534). -/
def get_resources (b : ConsulB) (fetch : Fetch) (decode : Decode)
    (cache : Cache) (path : String) : BkRes :=
  match sIndex b.config "prefix" with
  | .error e => ⟨.error e, cache, 0, []⟩
  | .ok pfxV =>
      let key := pyStr pfxV ++ path
      match get_url b (.str key) with
      | .error e => ⟨.error e, cache, 0, []⟩
      | .ok url =>
          match sGet cache url with
          | some v => ⟨.ok v, cache, 0, []⟩
          | none =>
              match kv_get fetch url [] with
              | .error e => ⟨.error e, cache, 1, []⟩
              | .ok (.list entries) =>
                  match resourcesLoop decode entries with
                  | (ws, .error e) => ⟨.error e, cache, 1, ws⟩
                  | (ws, .ok (some v)) => ⟨.ok v, sSet cache url v, 1, ws⟩
                  | (ws, .ok none) => ⟨.ok .null, cache, 1, ws⟩
              | .ok _ => ⟨.error (.exc "Wrong type"), cache, 1, []⟩

/-- The list comprehension of remove_prefix lifted to payload values: every
item must be a string (AttributeError otherwise); lstrip of None strips
whitespace, of a string strips its character set. -/
def remove_prefix_v (lst : List Val) (pfxV : Val) : Except PyError (List String) :=
  lst.mapM (fun item =>
    match item with
    | .str s =>
        match pfxV with
        | .str p => .ok (lstrip s p)
        | .null => .ok (String.mk (s.data.dropWhile (fun c => c.isWhitespace)))
        | _ => .error (.exc "TypeError: lstrip arg must be None or str")
    | _ => .error (.exc "AttributeError: item has no lstrip"))

/-- TerraformConsul.get_stacks (lines 538-564), called with path=None as the
plugin does: list all keys under the configured key namespace and strip the
namespace from each. -/
def get_stacks (b : ConsulB) (fetch : Fetch) (cache : Cache) : BkRes :=
  match sIndex b.config "prefix" with
  | .error e => ⟨.error e, cache, 0, []⟩
  | .ok pfxV =>
      match get_url b pfxV with
      | .error e => ⟨.error e, cache, 0, []⟩
      | .ok url =>
          match sGet cache url with
          | some v => ⟨.ok v, cache, 0, []⟩
          | none =>
              match kv_get fetch url [("recurse", .bool true), ("keys", .bool true)] with
              | .error e => ⟨.error e, cache, 1, []⟩
              | .ok (.list entries) =>
                  match remove_prefix_v entries pfxV with
                  | .error e => ⟨.error e, cache, 1, []⟩
                  | .ok ret =>
                      let retV := Val.list (ret.map Val.str)
                      ⟨.ok retV, sSet cache url retV, 1, []⟩
              | .ok _ => ⟨.error (.exc "Wrong type"), cache, 1, []⟩

/-! Resource drivers (classes Driver, AnsibleHost, LibvirtDomain,
terraform.py lines 218-338).  Host maps are Python dicts keyed by whatever
value the attributes carry as hostname, so they are modelled as
insertion-ordered association lists over `Val`. -/

/-- Membership in a Val-keyed host map. -/
def hMem (d : List (Val × Val)) (k : Val) : Bool :=
  d.any (fun p => p.1 == k)

/-- Lookup in a Val-keyed host map. -/
def hGet (d : List (Val × Val)) (k : Val) : Option Val :=
  (d.find? (fun p => p.1 == k)).map (·.2)

/-- Driver.filter_provider_type (lines 235-238):
`[ i for i in instances if i.get('type') in types ]`. -/
def filter_provider_type (instances : List Val) (types : List Val) :
    Except PyError (List Val) :=
  match instances with
  | [] => .ok []
  | i :: rest => do
      let t ← vGetAttr i "type"
      let restF ← filter_provider_type rest types
      if types.contains t then pure (i :: restF) else pure restF

/-- The instance-collection loop of Driver.get_hosts (lines 250-252):
`instances.extend(inst.get('instances', []))` over the filtered data. -/
def collect_instances : List Val → Except PyError (List Val)
  | [] => .ok []
  | inst :: rest =>
      match inst with
      | .dict kvs =>
          match sGet kvs "instances" with
          | none => collect_instances rest
          | some (.list xs) => (collect_instances rest).map (fun r => xs ++ r)
          | some _ => .error (.exc "TypeError: extend argument is not a list")
      | _ => .error (.exc "AttributeError: no attribute get")

/-- AnsibleHost.loop_over_hosts (lines 266-282): skip instances with a falsy
attributes field; key the rest by attributes.get of inventory_hostname,
first occurrence wins, duplicates produce a logged message. -/
def ansible_loop (acc : List (Val × Val)) :
    List Val → List String × Except PyError (List (Val × Val))
  | [] => ([], .ok acc)
  | h :: rest =>
      match vGetAttr h "attributes" with
      | .error e => ([], .error e)
      | .ok attr =>
          if truthy attr = false then ansible_loop acc rest
          else
            match vGetAttr attr "inventory_hostname" with
            | .error e => ([], .error e)
            | .ok hn =>
                if hMem acc hn then
                  let (ws, r) := ansible_loop acc rest
                  (("Duplicate host found for: " ++ pyStr hn) :: ws, r)
                else
                  ansible_loop (acc ++ [(hn, attr)]) rest

/-- AnsibleHost.loop_over_hosts from the empty result dict. -/
def loop_over_hosts (hosts : List Val) :
    List String × Except PyError (List (Val × Val)) :=
  ansible_loop [] hosts

/-- LibvirtDomain.loop_over_hosts (lines 290-338): skips falsy attributes the
same way, and raises on the first instance it would actually process. -/
def libvirt_loop : List Val → List String × Except PyError (List (Val × Val))
  | [] => ([], .ok [])
  | h :: rest =>
      match vGetAttr h "attributes" with
      | .error e => ([], .error e)
      | .ok attr =>
          if truthy attr = false then libvirt_loop rest
          else ([], .error (.exc "Work in progress, not implemented yet !"))

/-- The registered drivers (TerraformStack.driver_map, lines 352-355). -/
inductive DriverKind where
  | ansibleHost : DriverKind
  | libvirtDomain : DriverKind
  deriving Repr, DecidableEq

/-- Driver registry lookup with the exception raised by
TerraformStack.expand_conf (lines 393-396) on a missing name. -/
def driver_map_lookup (driver_name : Val) : Except PyError DriverKind :=
  if driver_name = .str "libvirt_domain" then .ok .libvirtDomain
  else if driver_name = .str "ansible_host" then .ok .ansibleHost
  else .error (.exc ("Could not find driver '" ++ pyStr driver_name ++ "'"))

/-- The declared resource types of each driver. -/
def driver_types : DriverKind → List Val
  | .ansibleHost => [.str "ansible_host"]
  | .libvirtDomain => [.str "libvirt_domain"]

/-- Driver.__init__ (filtering) followed by Driver.get_hosts (instance
flattening and the subclass host loop); the resource list must be iterable
(a None result of get_resources raises here, as in the source). -/
def driver_get_hosts (k : DriverKind) (resources : Val) :
    List String × Except PyError (List (Val × Val)) :=
  match resources with
  | .list items =>
      match filter_provider_type items (driver_types k) with
      | .error e => ([], .error e)
      | .ok data =>
          match collect_instances data with
          | .error e => ([], .error e)
          | .ok instances =>
              match k with
              | .ansibleHost => loop_over_hosts instances
              | .libvirtDomain => libvirt_loop instances
  | _ => ([], .error (.exc "TypeError: resources is not iterable"))

/-! TerraformStack (lines 343-416) and TerraformPlugin (lines 135-211). -/

/-- TerraformStack.default_config (lines 346-350). -/
def stack_default_config : List (String × Val) :=
  [("name", .null), ("driver", .null), ("backend", .str "local")]

/-- TerraformPlugin.default_stack_conf (lines 137-140). -/
def default_stack_conf : List (String × Val) :=
  [("name", .null), ("backend", .str "local")]

/-- A value of the backends dict built by parse_backends: a TerraformConsul
object, or the placeholder string the source stores for the local kind. -/
inductive BackendObj where
  | consul (b : ConsulB) : BackendObj
  | localS : BackendObj
  deriving Repr

/-- A TerraformStack object: its merged config, the name its backend is
registered under (used to thread that backend object's cache), and the
backend object itself. -/
structure StackObj where
  config : List (String × Val)
  bname : String
  backend : BackendObj
  deriving Repr

/-- Python `a or b` on values. -/
def pyOr (a b : Val) : Val :=
  if truthy a then a else b

/-- The effective driver name computed by TerraformStack.expand_conf
(lines 389-391): `stack_type or backend_type or None`. -/
def effective_driver (stack_type backend_type : Val) : Val :=
  pyOr stack_type (pyOr backend_type .null)

/-- self.backend.config['driver'] (line 389): only a real backend object has
a config; reading a missing driver key is a KeyError. -/
def backend_config_driver : BackendObj → Except PyError Val
  | .consul b => sIndex b.config "driver"
  | .localS => .error (.exc "AttributeError: str object has no attribute config")

/-- Backend dispatch of get_stacks. -/
def backend_get_stacks (bo : BackendObj) (fetch : Fetch) (cache : Cache) : BkRes :=
  match bo with
  | .consul b => get_stacks b fetch cache
  | .localS => ⟨.error (.exc "AttributeError: str object has no attribute get_stacks"), cache, 0, []⟩

/-- Backend dispatch of get_resources. -/
def backend_get_resources (bo : BackendObj) (fetch : Fetch) (decode : Decode)
    (cache : Cache) (path : String) : BkRes :=
  match bo with
  | .consul b => get_resources b fetch decode cache path
  | .localS => ⟨.error (.exc "AttributeError: str object has no attribute get_resources"), cache, 0, []⟩

/-- TerraformStack._expand_paths (lines 372-379): compile the configured name
as a regex and keep the backend stacks it matches (re.match, anchored at the
start), in backend order. -/
def expand_paths (st : StackObj) (fetch : Fetch) (cache : Cache) :
    Except PyError (List String) × Cache :=
  match sIndex st.config "name" with
  | .error e => (.error e, cache)
  | .ok (.str ns) =>
      match reCompile ns with
      | .error e => (.error (.exc ("re.error: " ++ e)), cache)
      | .ok r =>
          let out := backend_get_stacks st.backend fetch cache
          match out.res with
          | .error e => (.error e, out.cache)
          | .ok (.list stackVals) =>
              match stackVals.mapM (fun v =>
                  match v with
                  | .str s => Except.ok s
                  | _ => Except.error (PyError.exc "TypeError: expected string or bytes-like object")) with
              | .error e => (.error e, out.cache)
              | .ok strs => (.ok (filter_match r strs), out.cache)
          | .ok _ => (.error (.exc "TypeError: filter argument is not iterable"), out.cache)
  | .ok _ => (.error (.exc "TypeError: re.compile argument"), cache)

/-- The host-merge loop at the end of each expand_conf iteration
(lines 401-414): skip an already-present hostname with a printed message,
otherwise inject terraform stack/driver context into the record and add it. -/
def tagAndMerge (path : String) (dname : Val) (ret : List (Val × Val)) :
    List (Val × Val) → List String × Except PyError (List (Val × Val))
  | [] => ([], .ok ret)
  | (hn, hd) :: rest =>
      if hMem ret hn then
        let (ws, r) := tagAndMerge path dname ret rest
        (("Duplicate host found: " ++ pyStr hn) :: ws, r)
      else
        match hd with
        | .dict kvs =>
            let inv : List (String × Val) := [("stack", .str path), ("driver", dname)]
            let kvs1 := sSet kvs "terraform" (.dict inv)
            match sGet kvs1 "vars" with
            | none => ([], .error (.exc "KeyError: vars"))
            | some (.dict varsD) =>
                let varsD2 := sUpdate varsD
                  [("terraform_stack", .str path), ("terraform_driver", dname)]
                let hd2 := Val.dict (sSet kvs1 "vars" (.dict varsD2))
                tagAndMerge path dname (ret ++ [(hn, hd2)]) rest
            | some _ => ([], .error (.exc "AttributeError: vars has no attribute update"))
        | _ => ([], .error (.exc "TypeError: host_def does not support item assignment"))

/-- The per-path loop of TerraformStack.expand_conf (lines 384-414): fetch
resources, resolve the effective driver through the registry, extract hosts,
tag and merge them. -/
def pathsLoop (st : StackObj) (fetch : Fetch) (decode : Decode) :
    List String → Cache → List (Val × Val) →
      List String × Except PyError (List (Val × Val)) × Cache
  | [], cache, ret => ([], .ok ret, cache)
  | path :: rest, cache, ret =>
      let out := backend_get_resources st.backend fetch decode cache path
      match out.res with
      | .error e => (out.warns, .error e, out.cache)
      | .ok res =>
          match backend_config_driver st.backend with
          | .error e => (out.warns, .error e, out.cache)
          | .ok backend_type =>
              match sIndex st.config "driver" with
              | .error e => (out.warns, .error e, out.cache)
              | .ok stack_type =>
                  let driver_name := effective_driver stack_type backend_type
                  match driver_map_lookup driver_name with
                  | .error e => (out.warns, .error e, out.cache)
                  | .ok dk =>
                      let (ws1, hres) := driver_get_hosts dk res
                      match hres with
                      | .error e => (out.warns ++ ws1, .error e, out.cache)
                      | .ok hosts =>
                          let (ws2, mres) := tagAndMerge path driver_name ret hosts
                          match mres with
                          | .error e => (out.warns ++ ws1 ++ ws2, .error e, out.cache)
                          | .ok ret2 =>
                              let (wsR, rres, cacheR) :=
                                pathsLoop st fetch decode rest out.cache ret2
                              (out.warns ++ ws1 ++ ws2 ++ wsR, rres, cacheR)

/-- TerraformStack.expand_conf (lines 381-416). -/
def expand_conf (st : StackObj) (fetch : Fetch) (decode : Decode) (cache : Cache) :
    List String × Except PyError (List (Val × Val)) × Cache :=
  match expand_paths st fetch cache with
  | (.error e, cache2) => ([], .error e, cache2)
  | (.ok paths, cache2) => pathsLoop st fetch decode paths cache2 []

/-- TerraformPlugin.parse_backends (lines 177-196). -/
def parse_backends : List (String × Val) → Except PyError (List (String × BackendObj))
  | [] => .ok []
  | (name, bdef) :: rest =>
      match bdef with
      | .dict d =>
          let new_def := sUpdate (sUpdate [] default_backend_conf) d
          let kind := sGetD d "type" (.str "local")
          if kind = .str "consul" then
            (parse_backends rest).map (fun r => (name, .consul (consul_init name new_def)) :: r)
          else if kind = .str "local" then
            (parse_backends rest).map (fun r => (name, BackendObj.localS) :: r)
          else
            .error (.ansible ("Unsupported backend type '" ++ pyStr kind ++
              " for backend " ++ name ++ "'"))
      | _ => .error (.exc "TypeError: backend definition is not a mapping")

/-- TerraformPlugin.parse_stacks (lines 198-211) together with
TerraformStack.__init__ (lines 357-360): each stack definition is merged
over the plugin defaults, given its declaration index, merged again over the
stack defaults, and bound to the backend object its backend key names. -/
def parse_stacks_go (backends : List (String × BackendObj)) :
    Nat → List Val → Except PyError (List StackObj)
  | _, [] => .ok []
  | idx, sdef :: rest =>
      match sdef with
      | .dict d =>
          let new_def := sSet (sUpdate (sUpdate [] default_stack_conf) d) "index" (.num idx)
          let cfg := sUpdate (sUpdate [] stack_default_config) new_def
          match sGetD new_def "backend" .null with
          | .str bn =>
              match (backends.find? (fun p => p.1 == bn)).map (·.2) with
              | some bo =>
                  (parse_stacks_go backends (idx + 1) rest).map
                    (fun r => (⟨cfg, bn, bo⟩ : StackObj) :: r)
              | none => .error (.exc ("KeyError: " ++ bn))
          | other => .error (.exc ("KeyError: " ++ pyStr other))
      | _ => .error (.exc "TypeError: stack definition is not a mapping")

/-- TerraformPlugin.parse_stacks entry point. -/
def parse_stacks (stacks_conf : List Val) (backends : List (String × BackendObj)) :
    Except PyError (List StackObj) :=
  parse_stacks_go backends 0 stacks_conf

/-- The per-backend-object caches, keyed by backend name. -/
abbrev CacheMap := List (String × Cache)

/-- Read one backend object's cache (empty before its first use). -/
def cmGet (cm : CacheMap) (k : String) : Cache :=
  ((cm.find? (fun p => p.1 == k)).map (·.2)).getD []

/-- Store one backend object's cache back. -/
def cmSet (cm : CacheMap) (k : String) (c : Cache) : CacheMap :=
  if cm.any (fun p => p.1 == k) then cm.map (fun p => if p.1 == k then (k, c) else p)
  else cm ++ [(k, c)]

/-- The final merge loop of TerraformPlugin.expand_stacks (lines 161-165):
an already-present hostname is dropped with a printed message, otherwise the
record is added. -/
def merge_hosts (ret : List (Val × Val)) :
    List (Val × Val) → List String × List (Val × Val)
  | [] => ([], ret)
  | (hn, hd) :: rest =>
      if hMem ret hn then
        let (ws, r) := merge_hosts ret rest
        (("Duplicated host found " ++ pyStr hn) :: ws, r)
      else merge_hosts (ret ++ [(hn, hd)]) rest

/-- The stack loop of TerraformPlugin.expand_stacks (lines 155-165). -/
def stacksLoop (fetch : Fetch) (decode : Decode) :
    List StackObj → CacheMap → List (Val × Val) →
      List String × Except PyError (List (Val × Val)) × CacheMap
  | [], cm, ret => ([], .ok ret, cm)
  | st :: rest, cm, ret =>
      let (ws, r, cache2) := expand_conf st fetch decode (cmGet cm st.bname)
      let cm2 := cmSet cm st.bname cache2
      match r with
      | .error e => (ws, .error e, cm2)
      | .ok resources =>
          let (ws2, ret2) := merge_hosts ret resources
          let (ws3, rr, cm3) := stacksLoop fetch decode rest cm2 ret2
          (ws ++ ws2 ++ ws3, rr, cm3)

/-- TerraformPlugin.expand_stacks (lines 151-166) including parse_config:
build the backend objects and stack objects, then fold the stacks in
declaration order into one host map. -/
def expand_stacks (stacks_conf : List Val) (backends_conf : List (String × Val))
    (fetch : Fetch) (decode : Decode) :
    List String × Except PyError (List (Val × Val)) × CacheMap :=
  match parse_backends backends_conf with
  | .error e => ([], .error e, [])
  | .ok backends =>
      match parse_stacks stacks_conf backends with
      | .error e => ([], .error e, [])
      | .ok stks => stacksLoop fetch decode stks [] []

/-! Concrete test fixtures: a Consul backend over the key namespace /qq/,
state documents holding one ansible_host resource each, and fetch/decode
oracles for the scenarios examined below. -/

/-- An ansible_host attributes dict: hostname, plus a vars dict holding one
marker variable identifying which instance the record came from. -/
def tAttr (name marker : String) : Val :=
  .dict [("inventory_hostname", .str name), ("vars", .dict [("m", .str marker)])]

/-- One resource instance. -/
def tInst (name marker : String) : Val :=
  .dict [("attributes", tAttr name marker)]

/-- A Terraform-state-shaped document with one ansible_host resource. -/
def tState (insts : List Val) : Val :=
  .dict [("resources", .list [.dict [("type", .str "ansible_host"), ("instances", .list insts)]])]

/-- Backends configuration: one Consul backend named c1. -/
def tBackends : List (String × Val) :=
  [("c1", .dict [("type", .str "consul"), ("prefix", .str "/qq/"),
    ("driver", .str "ansible_host")])]

/-- A stack definition bound to c1 with a given name pattern. -/
def tStack (n : String) : Val :=
  .dict [("name", .str n), ("backend", .str "c1")]

/-- A stack definition with a per-stack driver override. -/
def tStackD (n d : String) : Val :=
  .dict [("name", .str n), ("backend", .str "c1"), ("driver", .str d)]

/-- The c1 backend object as parse_backends builds it. -/
def c1B : ConsulB :=
  consul_init "c1" (sUpdate (sUpdate [] default_backend_conf)
    [("type", .str "consul"), ("prefix", .str "/qq/"), ("driver", .str "ansible_host")])

/-- The URL of the recursive key listing under /qq/. -/
def listURL : String := "http://127.0.0.1:8600/v1/kv/qq/"

/-- The URL of the state value of one stack under /qq/. -/
def resURL (p : String) : String := "http://127.0.0.1:8600/v1/kv/qq/" ++ p

/-- Decode oracle: b1 holds two instances both named node1 (markers A, B);
b2 holds one instance also named node1 (marker C). -/
def tDecode : Decode := fun s =>
  if s = "b1" then .ok (tState [tInst "node1" "A", tInst "node1" "B"])
  else if s = "b2" then .ok (tState [tInst "node1" "C"])
  else .error "bad base64"

/-- Fetch oracle: listing yields stacks s1 and s2, each stack has a state
value (b1 for s1, b2 for s2). -/
def tFetch4 : Fetch := fun url _ =>
  if url = listURL then .resp 200 "OK" "" (.ok (.list [.str "/qq/s1", .str "/qq/s2"]))
  else if url = resURL "s1" then
    .resp 200 "OK" "" (.ok (.list [.dict [("Key", .str "k1"), ("Value", .str "b1")]]))
  else if url = resURL "s2" then
    .resp 200 "OK" "" (.ok (.list [.dict [("Key", .str "k2"), ("Value", .str "b2")]]))
  else .exc "unexpected"

/-- Fetch oracle with a transport failure on the state value of s1. -/
def tFetch2 : Fetch := fun url _ =>
  if url = listURL then .resp 200 "OK" "" (.ok (.list [.str "/qq/s1", .str "/qq/s2"]))
  else if url = resURL "s1" then .exc "boom"
  else if url = resURL "s2" then
    .resp 200 "OK" "" (.ok (.list [.dict [("Key", .str "k2"), ("Value", .str "b2")]]))
  else .exc "unexpected"

/-- Fetch oracle whose s1 payload starts with an entry that has no Value
field, followed by a well-formed entry. -/
def tFetch6 : Fetch := fun url _ =>
  if url = resURL "s1" then
    .resp 200 "OK" "" (.ok (.list [.dict [("Key", .str "k0")],
      .dict [("Key", .str "k2"), ("Value", .str "b2")]]))
  else .exc "unexpected"

/-- Fetch oracle whose s1 payload is an empty list (a successful fetch that
yields no resource entries). -/
def tFetch7 : Fetch := fun url _ =>
  if url = resURL "s1" then .resp 200 "OK" "" (.ok (.list []))
  else .exc "unexpected"

/-- The fully-qualified URL get_resources builds for one stack identifier. -/
def res_url (b : ConsulB) (path : String) : Except PyError String :=
  match sIndex b.config "prefix" with
  | .error e => .error e
  | .ok pfxV => get_url b (.str (pyStr pfxV ++ path))

/-- The fully-qualified URL get_stacks builds for the key listing. -/
def stacks_url (b : ConsulB) : Except PyError String :=
  match sIndex b.config "prefix" with
  | .error e => .error e
  | .ok pfxV => get_url b pfxV

/-! Helper lemmas about the dict operations. -/

theorem sGet_cons (p : String × Val) (d : List (String × Val)) (k : String) :
    sGet (p :: d) k = if p.1 == k then some p.2 else sGet d k := by
  simp only [sGet, List.find?_cons]
  cases h : (p.1 == k) <;> simp [h]

theorem sMem_cons (p : String × Val) (d : List (String × Val)) (k : String) :
    sMem (p :: d) k = ((p.1 == k) || sMem d k) := by
  simp [sMem, List.any_cons]

theorem sGet_none_of_sMem_false {d : List (String × Val)} {k : String}
    (h : sMem d k = false) : sGet d k = none := by
  induction d with
  | nil => rfl
  | cons p d ih =>
      rw [sMem_cons] at h
      rcases Bool.or_eq_false_iff.mp h with ⟨h1, h2⟩
      rw [sGet_cons, h1, if_neg (by simp)]
      exact ih h2

theorem sGet_append_left {d : List (String × Val)} {k : String} {v : Val}
    (l : List (String × Val)) (h : sGet d k = some v) : sGet (d ++ l) k = some v := by
  induction d with
  | nil => simp [sGet] at h
  | cons p d ih =>
      rw [sGet_cons] at h
      rw [List.cons_append, sGet_cons]
      by_cases hp : (p.1 == k) = true
      · rw [if_pos hp] at h ⊢; exact h
      · rw [if_neg hp] at h ⊢; exact ih h

theorem sGet_append_of_none {d : List (String × Val)} {k : String}
    (l : List (String × Val)) (h : sGet d k = none) : sGet (d ++ l) k = sGet l k := by
  induction d with
  | nil => simp
  | cons p d ih =>
      rw [sGet_cons] at h
      rw [List.cons_append, sGet_cons]
      by_cases hp : (p.1 == k) = true
      · rw [if_pos hp] at h; cases h
      · rw [if_neg hp] at h ⊢; exact ih h

theorem sGet_map_replace {k k2 : String} (h : ¬ k2 = k) (d : List (String × Val)) (v : Val) :
    sGet (d.map (fun p => if p.1 == k2 then (k2, v) else p)) k = sGet d k := by
  induction d with
  | nil => rfl
  | cons p d ih =>
      rw [List.map_cons, sGet_cons, sGet_cons]
      by_cases hp : (p.1 == k2) = true
      · have hpk : (p.1 == k) = false := by
          simp [beq_iff_eq.mp hp]; exact h
        have hk2 : ((k2 : String) == k) = false := by simp; exact h
        rw [if_pos hp]
        simp only [hk2, hpk, Bool.false_eq_true, if_false]
        exact ih
      · rw [if_neg hp]
        by_cases hpk : (p.1 == k) = true
        · simp [hpk]
        · simp only [show (p.1 == k) = false from Bool.eq_false_iff.mpr hpk,
            Bool.false_eq_true, if_false]
          exact ih

theorem sGet_map_replace_self (k : String) (d : List (String × Val)) (v : Val)
    (hm : sMem d k = true) :
    sGet (d.map (fun p => if p.1 == k then (k, v) else p)) k = some v := by
  induction d with
  | nil => simp [sMem] at hm
  | cons p d ih =>
      rw [sMem_cons] at hm
      rw [List.map_cons, sGet_cons]
      by_cases hp : (p.1 == k) = true
      · rw [if_pos hp]; simp
      · rw [if_neg hp]
        simp only [show (p.1 == k) = false from Bool.eq_false_iff.mpr hp,
          Bool.false_eq_true, if_false]
        exact ih (by simpa [hp] using hm)

theorem sGet_sSet_self (d : List (String × Val)) (k : String) (v : Val) :
    sGet (sSet d k v) k = some v := by
  unfold sSet
  by_cases hm : sMem d k = true
  · rw [if_pos hm]; exact sGet_map_replace_self k d v hm
  · rw [if_neg hm]
    rw [sGet_append_of_none _ (sGet_none_of_sMem_false (Bool.eq_false_iff.mpr hm))]
    simp [sGet_cons]

theorem sGet_sSet_other {k k2 : String} (h : ¬ k2 = k) (d : List (String × Val)) (v : Val) :
    sGet (sSet d k2 v) k = sGet d k := by
  unfold sSet
  by_cases hm : sMem d k2 = true
  · rw [if_pos hm]; exact sGet_map_replace h d v
  · rw [if_neg hm]
    by_cases hk : sGet d k = none
    · rw [sGet_append_of_none _ hk, hk]
      simp [sGet, sGet_cons, show ((k2 : String) == k) = false from by simp; exact h]
    · obtain ⟨v2, hv2⟩ := Option.ne_none_iff_exists.mp hk
      rw [sGet_append_left _ hv2.symm, hv2.symm]

theorem sGet_sUpdate_not_set {k : String} :
    ∀ (d2 d : List (String × Val)), sMem d2 k = false → sGet (sUpdate d d2) k = sGet d k := by
  intro d2
  induction d2 with
  | nil => intro d _; rfl
  | cons p d2 ih =>
      intro d h
      rw [sMem_cons] at h
      rcases Bool.or_eq_false_iff.mp h with ⟨h1, h2⟩
      show sGet (sUpdate (sSet d p.1 p.2) d2) k = sGet d k
      rw [ih _ h2, sGet_sSet_other (by intro he; simp [he] at h1) d p.2]

theorem hGet_cons (p : Val × Val) (d : List (Val × Val)) (k : Val) :
    hGet (p :: d) k = if p.1 == k then some p.2 else hGet d k := by
  simp only [hGet, List.find?_cons]
  cases h : (p.1 == k) <;> simp [h]

theorem hMem_cons (p : Val × Val) (d : List (Val × Val)) (k : Val) :
    hMem (p :: d) k = ((p.1 == k) || hMem d k) := by
  simp [hMem, List.any_cons]

theorem hGet_none_of_hMem_false {d : List (Val × Val)} {k : Val}
    (h : hMem d k = false) : hGet d k = none := by
  induction d with
  | nil => rfl
  | cons p d ih =>
      rw [hMem_cons] at h
      rcases Bool.or_eq_false_iff.mp h with ⟨h1, h2⟩
      rw [hGet_cons, h1, if_neg (by simp)]
      exact ih h2

theorem hMem_false_of_hGet_none {d : List (Val × Val)} {k : Val}
    (h : hGet d k = none) : hMem d k = false := by
  induction d with
  | nil => rfl
  | cons p d ih =>
      rw [hGet_cons] at h
      rw [hMem_cons]
      by_cases hp : (p.1 == k) = true
      · rw [if_pos hp] at h; cases h
      · rw [if_neg hp] at h
        simp [Bool.eq_false_iff.mpr hp, ih h]

theorem hGet_append_left {d : List (Val × Val)} {k : Val} {v : Val}
    (l : List (Val × Val)) (h : hGet d k = some v) : hGet (d ++ l) k = some v := by
  induction d with
  | nil => simp [hGet] at h
  | cons p d ih =>
      rw [hGet_cons] at h
      rw [List.cons_append, hGet_cons]
      by_cases hp : (p.1 == k) = true
      · rw [if_pos hp] at h ⊢; exact h
      · rw [if_neg hp] at h ⊢; exact ih h

theorem hGet_append_of_none {d : List (Val × Val)} {k : Val}
    (l : List (Val × Val)) (h : hGet d k = none) : hGet (d ++ l) k = hGet l k := by
  induction d with
  | nil => simp
  | cons p d ih =>
      rw [hGet_cons] at h
      rw [List.cons_append, hGet_cons]
      by_cases hp : (p.1 == k) = true
      · rw [if_pos hp] at h; cases h
      · rw [if_neg hp] at h ⊢; exact ih h

theorem not_mem_keys_of_hMem_false {d : List (Val × Val)} {k : Val}
    (h : hMem d k = false) : k ∉ d.map Prod.fst := by
  intro hmem
  rcases List.mem_map.mp hmem with ⟨p, hp, hk⟩
  have : hMem d k = true := List.any_eq_true.mpr ⟨p, hp, by simp [hk]⟩
  rw [this] at h; cases h

/-! Lemmas about the final merge loop of expand_stacks. -/

theorem merge_hosts_preserve :
    ∀ (entries ret : List (Val × Val)) (k v : Val),
      hGet ret k = some v → hGet (merge_hosts ret entries).2 k = some v := by
  intro entries
  induction entries with
  | nil => intro ret k v h; simpa [merge_hosts] using h
  | cons p rest ih =>
      intro ret k v h
      obtain ⟨hn, hd⟩ := p
      by_cases hm : hMem ret hn = true
      · have := ih ret k v h
        cases hrec : merge_hosts ret rest with
        | mk ws r =>
            rw [hrec] at this
            simp only [merge_hosts, hm, if_true, hrec]
            exact this
      · simp only [merge_hosts, hm, Bool.false_eq_true, if_false]
        exact ih (ret ++ [(hn, hd)]) k v (hGet_append_left _ h)

theorem merge_hosts_first_wins :
    ∀ (entries ret : List (Val × Val)) (k : Val),
      hGet ret k = none → hGet (merge_hosts ret entries).2 k = hGet entries k := by
  intro entries
  induction entries with
  | nil => intro ret k h; simpa [merge_hosts, hGet] using h
  | cons p rest ih =>
      intro ret k h
      obtain ⟨hn, hd⟩ := p
      rw [hGet_cons]
      by_cases hk : (hn == k) = true
      · have hkeq : hn = k := beq_iff_eq.mp hk
        subst hkeq
        rw [if_pos (by simp)]
        have hm : hMem ret hn = false := hMem_false_of_hGet_none h
        simp only [merge_hosts, hm, Bool.false_eq_true, if_false]
        have hnew : hGet (ret ++ [(hn, hd)]) hn = some hd := by
          rw [hGet_append_of_none _ h, hGet_cons]
          simp
        exact merge_hosts_preserve rest _ hn hd hnew
      · rw [if_neg (by simpa using hk)]
        by_cases hm : hMem ret hn = true
        · have := ih ret k h
          cases hrec : merge_hosts ret rest with
          | mk ws r =>
              rw [hrec] at this
              simp only [merge_hosts, hm, if_true, hrec]
              exact this
        · simp only [merge_hosts, hm, Bool.false_eq_true, if_false]
          apply ih
          rw [hGet_append_of_none _ h, hGet_cons]
          simp only [hk, Bool.false_eq_true, if_false]
          rfl

theorem merge_hosts_count :
    ∀ (entries ret : List (Val × Val)),
      (merge_hosts ret entries).1.length + (merge_hosts ret entries).2.length =
        ret.length + entries.length := by
  intro entries
  induction entries with
  | nil => intro ret; simp [merge_hosts]
  | cons p rest ih =>
      intro ret
      obtain ⟨hn, hd⟩ := p
      by_cases hm : hMem ret hn = true
      · have := ih ret
        cases hrec : merge_hosts ret rest with
        | mk ws r =>
            rw [hrec] at this
            simp only [merge_hosts, hm, if_true, hrec] at this ⊢
            simp at this ⊢
            omega
      · have := ih (ret ++ [(hn, hd)])
        simp only [merge_hosts, hm, Bool.false_eq_true, if_false]
        simp [List.length_append] at this ⊢
        omega

theorem merge_hosts_nodup :
    ∀ (entries ret : List (Val × Val)),
      (ret.map Prod.fst).Nodup → ((merge_hosts ret entries).2.map Prod.fst).Nodup := by
  intro entries
  induction entries with
  | nil => intro ret h; simpa [merge_hosts] using h
  | cons p rest ih =>
      intro ret h
      obtain ⟨hn, hd⟩ := p
      by_cases hm : hMem ret hn = true
      · have := ih ret h
        cases hrec : merge_hosts ret rest with
        | mk ws r =>
            rw [hrec] at this
            simp only [merge_hosts, hm, if_true, hrec]
            exact this
      · simp only [merge_hosts, hm, Bool.false_eq_true, if_false]
        apply ih
        rw [List.map_append]
        rw [List.nodup_append]
        refine ⟨h, by simp, ?_⟩
        intro a ha hb
        simp at hb
        subst hb
        exact not_mem_keys_of_hMem_false (Bool.eq_false_iff.mpr hm) ha

/-! Lemmas about the tagging merge loop of expand_conf. -/

/-- A host record carrying the stack/driver context exactly as expand_conf
injects it: a terraform annotation holding the stack identifier and driver
name, and the two namespaced variables inside its vars mapping. -/
def taggedWith (path : String) (dname : Val) (hd : Val) : Prop :=
  ∃ kvs varsD,
    hd = .dict kvs ∧
    sGet kvs "terraform" = some (.dict [("stack", .str path), ("driver", dname)]) ∧
    sGet kvs "vars" = some (.dict varsD) ∧
    sGet varsD "terraform_stack" = some (.str path) ∧
    sGet varsD "terraform_driver" = some dname

theorem tag_shape (path : String) (dname : Val) (kvs varsD : List (String × Val)) :
    taggedWith path dname
      (.dict (sSet (sSet kvs "terraform" (.dict [("stack", .str path), ("driver", dname)]))
        "vars" (.dict (sUpdate varsD
          [("terraform_stack", .str path), ("terraform_driver", dname)])))) := by
  refine ⟨_, sUpdate varsD [("terraform_stack", .str path), ("terraform_driver", dname)],
    rfl, ?_, ?_, ?_, ?_⟩
  · rw [sGet_sSet_other (by decide) _ _]
    exact sGet_sSet_self _ _ _
  · exact sGet_sSet_self _ _ _
  · show sGet (sSet (sSet varsD "terraform_stack" (.str path)) "terraform_driver" dname)
      "terraform_stack" = some (.str path)
    rw [sGet_sSet_other (by decide) _ _]
    exact sGet_sSet_self _ _ _
  · show sGet (sSet (sSet varsD "terraform_stack" (.str path)) "terraform_driver" dname)
      "terraform_driver" = some dname
    exact sGet_sSet_self _ _ _

theorem tagAndMerge_mem :
    ∀ (hosts : List (Val × Val)) (path : String) (dname : Val)
      (ret ret2 : List (Val × Val)) (ws : List String),
      tagAndMerge path dname ret hosts = (ws, .ok ret2) →
      ∀ hn hd, (hn, hd) ∈ ret2 → (hn, hd) ∈ ret ∨ taggedWith path dname hd := by
  intro hosts
  induction hosts with
  | nil =>
      intro path dname ret ret2 ws heq hn hd hmem
      simp only [tagAndMerge] at heq
      injection heq with h1 h2
      injection h2 with h3
      exact Or.inl (h3 ▸ hmem)
  | cons p rest ih =>
      intro path dname ret ret2 ws heq hn hd hmem
      obtain ⟨hn0, hd0⟩ := p
      by_cases hm : hMem ret hn0 = true
      · cases hrec : tagAndMerge path dname ret rest with
        | mk ws1 r1 =>
            simp only [tagAndMerge, hm, if_true, hrec] at heq
            cases heq
            exact ih path dname ret ret2 ws1 hrec hn hd hmem
      · simp only [tagAndMerge, hm, Bool.false_eq_true, if_false] at heq
        cases hd0 with
        | dict kvs =>
            cases hv : sGet (sSet kvs "terraform"
                (.dict [("stack", .str path), ("driver", dname)])) "vars" with
            | none => simp only [hv] at heq; cases heq
            | some w =>
                cases w with
                | dict varsD =>
                    simp only [hv] at heq
                    have := ih path dname _ ret2 ws heq hn hd hmem
                    rcases this with hin | htag
                    · rcases List.mem_append.mp hin with hin2 | hin3
                      · exact Or.inl hin2
                      · simp at hin3
                        obtain ⟨-, h2⟩ := hin3
                        subst h2
                        exact Or.inr (tag_shape path dname kvs varsD)
                    · exact Or.inr htag
                | null => simp only [hv] at heq; cases heq
                | bool b => simp only [hv] at heq; cases heq
                | num n => simp only [hv] at heq; cases heq
                | str s => simp only [hv] at heq; cases heq
                | list xs => simp only [hv] at heq; cases heq
        | null => simp only at heq; cases heq
        | bool b => simp only at heq; cases heq
        | num n => simp only at heq; cases heq
        | str s => simp only at heq; cases heq
        | list xs => simp only at heq; cases heq

/-- The invariant carried through the expand_conf path loop: every host
record is tagged with some stack identifier from the resolved set and with
the effective driver name computed from the stack and backend configs. -/
def stackTagged (st : StackObj) (S : List String) (hd : Val) : Prop :=
  ∃ path stack_type backend_type,
    path ∈ S ∧
    backend_config_driver st.backend = .ok backend_type ∧
    sIndex st.config "driver" = .ok stack_type ∧
    taggedWith path (effective_driver stack_type backend_type) hd

theorem pathsLoop_tagged (st : StackObj) (fetch : Fetch) (decode : Decode) (S : List String) :
    ∀ (paths : List String) (cache : Cache) (ret : List (Val × Val))
      (ws : List String) (out : List (Val × Val)) (cache2 : Cache),
      paths ⊆ S →
      pathsLoop st fetch decode paths cache ret = (ws, .ok out, cache2) →
      (∀ hn hd, (hn, hd) ∈ ret → stackTagged st S hd) →
      ∀ hn hd, (hn, hd) ∈ out → stackTagged st S hd := by
  intro paths
  induction paths with
  | nil =>
      intro cache ret ws out cache2 hsub heq hinv hn hd hmem
      simp only [pathsLoop] at heq
      injection heq with h1 h2
      injection h2 with h3 h4
      injection h3 with h5
      exact hinv hn hd (h5 ▸ hmem)
  | cons path rest ih =>
      intro cache ret ws out cache2 hsub heq hinv hn hd hmem
      simp only [pathsLoop] at heq
      cases hr0 : (backend_get_resources st.backend fetch decode cache path).res with
      | error e => simp only [hr0] at heq; simp at heq
      | ok res =>
          simp only [hr0] at heq
          cases hbd : backend_config_driver st.backend with
          | error e => simp only [hbd] at heq; simp at heq
          | ok backend_type =>
              simp only [hbd] at heq
              cases hsd : sIndex st.config "driver" with
              | error e => simp only [hsd] at heq; simp at heq
              | ok stack_type =>
                  simp only [hsd] at heq
                  cases hdl : driver_map_lookup (effective_driver stack_type backend_type) with
                  | error e => simp only [hdl] at heq; simp at heq
                  | ok dk =>
                      simp only [hdl] at heq
                      cases hgh : driver_get_hosts dk res with
                      | mk ws1 hres =>
                          simp only [hgh] at heq
                          cases hres with
                          | error e => simp at heq
                          | ok hosts =>
                              cases htm : tagAndMerge path (effective_driver stack_type backend_type)
                                  ret hosts with
                              | mk ws2 mres =>
                                  simp only [htm] at heq
                                  cases mres with
                                  | error e => simp at heq
                                  | ok ret2 =>
                                      cases hrec : pathsLoop st fetch decode rest
                                          (backend_get_resources st.backend fetch decode
                                            cache path).cache ret2 with
                                      | mk wsR rr =>
                                          cases rr with
                                          | mk rres cacheR =>
                                              simp only [hrec] at heq
                                              injection heq with h1 h2
                                              injection h2 with h3 h4
                                              subst h3
                                              refine ih _ ret2 wsR out cacheR
                                                (fun x hx => hsub (List.mem_cons_of_mem _ hx))
                                                hrec ?_ hn hd hmem
                                              intro hn2 hd2 hmem2
                                              rcases tagAndMerge_mem hosts path
                                                  (effective_driver stack_type backend_type)
                                                  ret ret2 ws2 htm hn2 hd2 hmem2 with hin | htag
                                              · exact hinv hn2 hd2 hin
                                              · exact ⟨path, stack_type, backend_type,
                                                  hsub (List.mem_cons_self _ _), hbd, hsd, htag⟩

/-! Cache behavior of the two Consul backend methods. -/

theorem get_resources_cache_hit (b : ConsulB) (fetch : Fetch) (decode : Decode)
    (cache : Cache) (path : String) {url : String} {v : Val}
    (hu : res_url b path = .ok url) (hc : sGet cache url = some v) :
    get_resources b fetch decode cache path = ⟨.ok v, cache, 0, []⟩ := by
  cases hp : sIndex b.config "prefix" with
  | error e => simp only [res_url, hp] at hu; cases hu
  | ok pfxV =>
      simp only [res_url, hp] at hu
      simp only [get_resources, hp, hu, hc]

theorem get_stacks_cache_hit (b : ConsulB) (fetch : Fetch)
    (cache : Cache) {url : String} {v : Val}
    (hu : stacks_url b = .ok url) (hc : sGet cache url = some v) :
    get_stacks b fetch cache = ⟨.ok v, cache, 0, []⟩ := by
  cases hp : sIndex b.config "prefix" with
  | error e => simp only [stacks_url, hp] at hu; cases hu
  | ok pfxV =>
      simp only [stacks_url, hp] at hu
      simp only [get_stacks, hp, hu, hc]

theorem get_resources_cache_preserve (b : ConsulB) (fetch : Fetch) (decode : Decode)
    (cache : Cache) (path : String) {k : String} {v : Val} (h : sGet cache k = some v) :
    sGet (get_resources b fetch decode cache path).cache k = some v := by
  cases hp : sIndex b.config "prefix" with
  | error e => simp only [get_resources, hp]; exact h
  | ok pfxV =>
      cases hu : get_url b (.str (pyStr pfxV ++ path)) with
      | error e => simp only [get_resources, hp, hu]; exact h
      | ok url =>
          cases hc : sGet cache url with
          | some w => simp only [get_resources, hp, hu, hc]; exact h
          | none =>
              cases hk : kv_get fetch url [] with
              | error e => simp only [get_resources, hp, hu, hc, hk]; exact h
              | ok payload =>
                  cases payload with
                  | list entries =>
                      cases hl : resourcesLoop decode entries with
                      | mk ws r =>
                          cases r with
                          | error e => simp only [get_resources, hp, hu, hc, hk, hl]; exact h
                          | ok o =>
                              cases o with
                              | none => simp only [get_resources, hp, hu, hc, hk, hl]; exact h
                              | some w =>
                                  simp only [get_resources, hp, hu, hc, hk, hl]
                                  have hne : ¬ url = k := by
                                    intro he; rw [he, h] at hc; cases hc
                                  rw [sGet_sSet_other hne cache w]; exact h
                  | null => simp only [get_resources, hp, hu, hc, hk]; exact h
                  | bool x => simp only [get_resources, hp, hu, hc, hk]; exact h
                  | num x => simp only [get_resources, hp, hu, hc, hk]; exact h
                  | str x => simp only [get_resources, hp, hu, hc, hk]; exact h
                  | dict x => simp only [get_resources, hp, hu, hc, hk]; exact h

theorem get_stacks_cache_preserve (b : ConsulB) (fetch : Fetch)
    (cache : Cache) {k : String} {v : Val} (h : sGet cache k = some v) :
    sGet (get_stacks b fetch cache).cache k = some v := by
  cases hp : sIndex b.config "prefix" with
  | error e => simp only [get_stacks, hp]; exact h
  | ok pfxV =>
      cases hu : get_url b pfxV with
      | error e => simp only [get_stacks, hp, hu]; exact h
      | ok url =>
          cases hc : sGet cache url with
          | some w => simp only [get_stacks, hp, hu, hc]; exact h
          | none =>
              cases hk : kv_get fetch url [("recurse", .bool true), ("keys", .bool true)] with
              | error e => simp only [get_stacks, hp, hu, hc, hk]; exact h
              | ok payload =>
                  cases payload with
                  | list entries =>
                      cases hl : remove_prefix_v entries pfxV with
                      | error e => simp only [get_stacks, hp, hu, hc, hk, hl]; exact h
                      | ok ret =>
                          simp only [get_stacks, hp, hu, hc, hk, hl]
                          have hne : ¬ url = k := by
                            intro he; rw [he, h] at hc; cases hc
                          rw [sGet_sSet_other hne cache _]; exact h
                  | null => simp only [get_stacks, hp, hu, hc, hk]; exact h
                  | bool x => simp only [get_stacks, hp, hu, hc, hk]; exact h
                  | num x => simp only [get_stacks, hp, hu, hc, hk]; exact h
                  | str x => simp only [get_stacks, hp, hu, hc, hk]; exact h
                  | dict x => simp only [get_stacks, hp, hu, hc, hk]; exact h

theorem get_resources_success_cached (b : ConsulB) (fetch : Fetch) (decode : Decode)
    (cache : Cache) (path : String) {url : String} {v : Val}
    (hu : res_url b path = .ok url) (hmiss : sGet cache url = none)
    (hok : (get_resources b fetch decode cache path).res = .ok v) :
    sGet (get_resources b fetch decode cache path).cache url = some v ∨
      (v = .null ∧ (get_resources b fetch decode cache path).cache = cache) := by
  cases hp : sIndex b.config "prefix" with
  | error e => simp only [res_url, hp] at hu; cases hu
  | ok pfxV =>
      simp only [res_url, hp] at hu
      cases hk : kv_get fetch url [] with
      | error e => simp only [get_resources, hp, hu, hmiss, hk] at hok; cases hok
      | ok payload =>
          cases payload with
          | list entries =>
              cases hl : resourcesLoop decode entries with
              | mk ws r =>
                  cases r with
                  | error e => simp only [get_resources, hp, hu, hmiss, hk, hl] at hok; cases hok
                  | ok o =>
                      cases o with
                      | none =>
                          simp only [get_resources, hp, hu, hmiss, hk, hl] at hok ⊢
                          injection hok with h1
                          exact Or.inr ⟨h1.symm, trivial⟩
                      | some w =>
                          simp only [get_resources, hp, hu, hmiss, hk, hl] at hok ⊢
                          injection hok with h1
                          cases h1
                          exact Or.inl (sGet_sSet_self cache url _)
          | null => simp only [get_resources, hp, hu, hmiss, hk] at hok; cases hok
          | bool x => simp only [get_resources, hp, hu, hmiss, hk] at hok; cases hok
          | num x => simp only [get_resources, hp, hu, hmiss, hk] at hok; cases hok
          | str x => simp only [get_resources, hp, hu, hmiss, hk] at hok; cases hok
          | dict x => simp only [get_resources, hp, hu, hmiss, hk] at hok; cases hok

theorem get_stacks_success_cached (b : ConsulB) (fetch : Fetch)
    (cache : Cache) {url : String} {v : Val}
    (hu : stacks_url b = .ok url) (hmiss : sGet cache url = none)
    (hok : (get_stacks b fetch cache).res = .ok v) :
    sGet (get_stacks b fetch cache).cache url = some v := by
  cases hp : sIndex b.config "prefix" with
  | error e => simp only [stacks_url, hp] at hu; cases hu
  | ok pfxV =>
      simp only [stacks_url, hp] at hu
      cases hk : kv_get fetch url [("recurse", .bool true), ("keys", .bool true)] with
      | error e => simp only [get_stacks, hp, hu, hmiss, hk] at hok; cases hok
      | ok payload =>
          cases payload with
          | list entries =>
              cases hl : remove_prefix_v entries pfxV with
              | error e => simp only [get_stacks, hp, hu, hmiss, hk, hl] at hok; cases hok
              | ok ret =>
                  simp only [get_stacks, hp, hu, hmiss, hk, hl] at hok ⊢
                  injection hok with h1
                  cases h1
                  exact sGet_sSet_self cache url _
          | null => simp only [get_stacks, hp, hu, hmiss, hk] at hok; cases hok
          | bool x => simp only [get_stacks, hp, hu, hmiss, hk] at hok; cases hok
          | num x => simp only [get_stacks, hp, hu, hmiss, hk] at hok; cases hok
          | str x => simp only [get_stacks, hp, hu, hmiss, hk] at hok; cases hok
          | dict x => simp only [get_stacks, hp, hu, hmiss, hk] at hok; cases hok

/-! Error propagation through the stack loop, and further helper lemmas. -/

theorem stacksLoop_error_head (fetch : Fetch) (decode : Decode) (st : StackObj)
    (rest : List StackObj) (cm : CacheMap) (ret : List (Val × Val)) {e : PyError}
    (h : (expand_conf st fetch decode (cmGet cm st.bname)).2.1 = .error e) :
    (stacksLoop fetch decode (st :: rest) cm ret).2.1 = .error e := by
  cases hec : expand_conf st fetch decode (cmGet cm st.bname) with
  | mk ws r2 =>
      cases r2 with
      | mk r cache2 =>
          rw [hec] at h
          simp only [stacksLoop, hec]
          cases r with
          | error e2 => injection h with h1; subst h1; rfl
          | ok resources => cases h

theorem sMem_eq_isSome (d : List (String × Val)) (k : String) :
    sMem d k = (sGet d k).isSome := by
  induction d with
  | nil => rfl
  | cons p d ih =>
      rw [sMem_cons, sGet_cons]
      by_cases hp : (p.1 == k) = true
      · simp [hp]
      · rw [Bool.eq_false_iff.mpr hp]
        simp [ih]

theorem sMem_sSet_other {k k2 : String} (h : ¬ k2 = k) (d : List (String × Val)) (v : Val) :
    sMem (sSet d k2 v) k = sMem d k := by
  rw [sMem_eq_isSome, sMem_eq_isSome, sGet_sSet_other h d v]

theorem sMem_sUpdate_false {k : String} :
    ∀ (d2 d : List (String × Val)), sMem d k = false → sMem d2 k = false →
      sMem (sUpdate d d2) k = false := by
  intro d2
  induction d2 with
  | nil => intro d h1 _; exact h1
  | cons p d2 ih =>
      intro d h1 h2
      rw [sMem_cons] at h2
      rcases Bool.or_eq_false_iff.mp h2 with ⟨h3, h4⟩
      show sMem (sUpdate (sSet d p.1 p.2) d2) k = false
      refine ih _ ?_ h4
      rw [sMem_sSet_other (by intro he; simp [he] at h3) d p.2]
      exact h1

theorem ansible_loop_skip_all :
    ∀ (hosts : List Val) (acc : List (Val × Val)),
      (∀ h ∈ hosts, ∃ kvs, h = Val.dict kvs ∧
        (sGet kvs "attributes" = none ∨ sGet kvs "attributes" = some (.dict []))) →
      ansible_loop acc hosts = ([], .ok acc) := by
  intro hosts
  induction hosts with
  | nil => intro acc _; rfl
  | cons h rest ih =>
      intro acc hyp
      obtain ⟨kvs, hh, hattr⟩ := hyp h (List.mem_cons_self _ _)
      subst hh
      have hrec := ih acc (fun x hx => hyp x (List.mem_cons_of_mem _ hx))
      rcases hattr with hnone | hempty
      · simp only [ansible_loop, vGetAttr, sGetD, hnone, Option.getD_none, truthy]
        exact hrec
      · simp only [ansible_loop, vGetAttr, sGetD, hempty, Option.getD_some, truthy]
        simpa using hrec

/-! Stack object fixtures, as parse_stacks builds them from the test
configuration, and the expected tagged host record. -/

/-- The stack object for tStack s1 at declaration index 0. -/
def tStackObj1 : StackObj :=
  ⟨sUpdate (sUpdate [] stack_default_config)
    (sSet (sUpdate (sUpdate [] default_stack_conf)
      [("name", .str "s1"), ("backend", .str "c1")]) "index" (.num 0)),
   "c1", .consul c1B⟩

/-- The stack object for tStack s2 at declaration index 1. -/
def tStackObj2 : StackObj :=
  ⟨sUpdate (sUpdate [] stack_default_config)
    (sSet (sUpdate (sUpdate [] default_stack_conf)
      [("name", .str "s2"), ("backend", .str "c1")]) "index" (.num 1)),
   "c1", .consul c1B⟩

/-- The stack object for tStackD s1 nope (an unregistered driver override)
at declaration index 0. -/
def tStackObjD : StackObj :=
  ⟨sUpdate (sUpdate [] stack_default_config)
    (sSet (sUpdate (sUpdate [] default_stack_conf)
      [("name", .str "s1"), ("backend", .str "c1"), ("driver", .str "nope")]) "index" (.num 0)),
   "c1", .consul c1B⟩

/-- The host record node1 (marker A) as expand_conf tags it in stack s1. -/
def tHostA : Val :=
  .dict [("inventory_hostname", .str "node1"),
    ("vars", .dict [("m", .str "A"), ("terraform_stack", .str "s1"),
      ("terraform_driver", .str "ansible_host")]),
    ("terraform", .dict [("stack", .str "s1"), ("driver", .str "ansible_host")])]

/-! Claim theorems. -/

/-- C1: the claim says list_stacks strips the configured prefix string from
the start of each key, so a key prefix ++ suffix yields exactly suffix.  The
code calls str.lstrip(prefix), which strips the CHARACTER SET of the prefix:
at the failing input, the key /terraform/state/test (prefix /terraform/state/
followed by suffix test) yields the empty string instead of test, because
t, e, s are all characters of the prefix. -/
theorem c1_remove_prefix_is_lstrip :
    remove_prefix ["/terraform/state/test"] "/terraform/state/" = [""] ∧
    ¬ remove_prefix ["/terraform/state/test"] "/terraform/state/" = ["test"] := by
  decide

/-- C2 counterexample: with a transport failure on stack s1 only, the whole
run raises (AnsibleError from kv_get propagates through expand_conf and
expand_stacks); the pipeline does NOT proceed to stack s2, and no host map
at all is produced, contrary to the claim. -/
theorem c2_counterexample_transport_error_aborts_run :
    (expand_stacks [tStack "s1", tStack "s2"] tBackends tFetch2 tDecode).2.1 =
      .error (.ansible
        "Could not fetch url http://127.0.0.1:8600/v1/kv/qq/s1, got error: boom") ∧
    ∀ m, ¬ (expand_stacks [tStack "s1", tStack "s2"] tBackends tFetch2 tDecode).2.1 =
      .ok m := by
  have h1 : (expand_stacks [tStack "s1", tStack "s2"] tBackends tFetch2 tDecode).2.1 =
      .error (.ansible
        "Could not fetch url http://127.0.0.1:8600/v1/kv/qq/s1, got error: boom") := by
    decide
  exact ⟨h1, fun m h => by rw [h1] at h; cases h⟩

/-- C2 amended: a fetch or parse failure while expanding one stack is not
contained: the exception propagates out of the stack loop, aborting the
whole run with that error, so no remaining stack is processed and no hosts
are returned. -/
theorem c2_amended_stack_failure_aborts_whole_run :
    ∀ (fetch : Fetch) (decode : Decode) (st : StackObj) (rest : List StackObj)
      (cm : CacheMap) (ret : List (Val × Val)) (e : PyError),
      (expand_conf st fetch decode (cmGet cm st.bname)).2.1 = .error e →
      (stacksLoop fetch decode (st :: rest) cm ret).2.1 = .error e :=
  fun fetch decode st rest cm ret e h =>
    stacksLoop_error_head fetch decode st rest cm ret h

/-- C2 witness: the amended theorem applied to the concrete two-stack
configuration whose first stack hits a transport failure. -/
theorem c2_witness_stack_failure_aborts :
    (stacksLoop tFetch2 tDecode [tStackObj1, tStackObj2] [] []).2.1 =
      .error (.ansible
        "Could not fetch url http://127.0.0.1:8600/v1/kv/qq/s1, got error: boom") :=
  c2_amended_stack_failure_aborts_whole_run tFetch2 tDecode tStackObj1 [tStackObj2]
    [] [] _ (by decide)

/-- C3 counterexample: with an unregistered driver name on stack s1 only,
the whole run raises the driver lookup exception; stack s2 with its valid
driver contributes nothing because the run aborts, contrary to the claim. -/
theorem c3_counterexample_driver_error_aborts_run :
    (expand_stacks [tStackD "s1" "nope", tStack "s2"] tBackends tFetch4 tDecode).2.1 =
      .error (.exc "Could not find driver 'nope'") ∧
    ∀ m, ¬ (expand_stacks [tStackD "s1" "nope", tStack "s2"] tBackends tFetch4
      tDecode).2.1 = .ok m := by
  have h1 : (expand_stacks [tStackD "s1" "nope", tStack "s2"] tBackends tFetch4
      tDecode).2.1 = .error (.exc "Could not find driver 'nope'") := by
    decide
  exact ⟨h1, fun m h => by rw [h1] at h; cases h⟩

/-- C3 amended: an effective driver name outside the registry makes the
registry lookup raise, and a failure while expanding one stack aborts the
whole run: the hosts of the remaining stacks are not returned. -/
theorem c3_amended_unknown_driver_aborts_run :
    (∀ dn : Val, ¬ dn = .str "ansible_host" → ¬ dn = .str "libvirt_domain" →
      driver_map_lookup dn =
        .error (.exc ("Could not find driver '" ++ pyStr dn ++ "'"))) ∧
    (∀ (fetch : Fetch) (decode : Decode) (st : StackObj) (rest : List StackObj)
      (cm : CacheMap) (ret : List (Val × Val)) (e : PyError),
      (expand_conf st fetch decode (cmGet cm st.bname)).2.1 = .error e →
      (stacksLoop fetch decode (st :: rest) cm ret).2.1 = .error e) := by
  constructor
  · intro dn h1 h2
    simp [driver_map_lookup, h1, h2]
  · intro fetch decode st rest cm ret e h
    exact stacksLoop_error_head fetch decode st rest cm ret h

/-- C3 witness: the amended theorem applied to the name nope and to the
concrete configuration whose first stack overrides the driver with nope. -/
theorem c3_witness_unknown_driver :
    driver_map_lookup (.str "nope") = .error (.exc "Could not find driver 'nope'") ∧
    (stacksLoop tFetch4 tDecode [tStackObjD, tStackObj2] [] []).2.1 =
      .error (.exc "Could not find driver 'nope'") := by
  constructor
  · exact c3_amended_unknown_driver_aborts_run.1 (.str "nope") (by decide) (by decide)
  · exact c3_amended_unknown_driver_aborts_run.2 tFetch4 tDecode tStackObjD
      [tStackObj2] [] [] _ (by decide)

/-- C4: the final merge keeps the first record for every hostname (records
already present are never overwritten; a fresh hostname gets the first
record that carries it), emits exactly one dropped-duplicate message per
dropped record (lengths add up), keeps hostnames unique, and on the
concrete two-stack run where both stacks produce node1 (and stack s1 itself
carries two node1 instances) the final inventory holds exactly the record
of the first instance of the first stack, with one in-stack and one
cross-stack duplicate message. -/
theorem c4_first_wins_dedup_with_warnings :
    (∀ (entries ret : List (Val × Val)) (k v : Val),
      hGet ret k = some v → hGet (merge_hosts ret entries).2 k = some v) ∧
    (∀ (entries ret : List (Val × Val)) (k : Val),
      hGet ret k = none → hGet (merge_hosts ret entries).2 k = hGet entries k) ∧
    (∀ (entries ret : List (Val × Val)),
      (merge_hosts ret entries).1.length + (merge_hosts ret entries).2.length =
        ret.length + entries.length) ∧
    (∀ (entries ret : List (Val × Val)),
      (ret.map Prod.fst).Nodup → ((merge_hosts ret entries).2.map Prod.fst).Nodup) ∧
    (expand_stacks [tStack "s1", tStack "s2"] tBackends tFetch4 tDecode).2.1 =
      .ok [(.str "node1", tHostA)] ∧
    (expand_stacks [tStack "s1", tStack "s2"] tBackends tFetch4 tDecode).1 =
      ["Duplicate host found for: node1", "Duplicated host found node1"] :=
  ⟨merge_hosts_preserve, merge_hosts_first_wins, merge_hosts_count, merge_hosts_nodup,
    by decide, by decide⟩

/-- C4 witness: the preservation and first-wins parts applied at concrete
host maps. -/
theorem c4_witness_first_wins :
    hGet (merge_hosts [(.str "a", .null)] [(.str "a", .str "second")]).2 (.str "a") =
      some .null ∧
    hGet (merge_hosts [] [(.str "b", .str "first"), (.str "b", .str "second")]).2
      (.str "b") = some (.str "first") := by
  constructor
  · exact c4_first_wins_dedup_with_warnings.1 [(.str "a", .str "second")]
      [(.str "a", .null)] (.str "a") .null (by decide)
  · have := c4_first_wins_dedup_with_warnings.2.1
      [(.str "b", .str "first"), (.str "b", .str "second")] [] (.str "b") (by decide)
    rw [this]; decide

/-- C5: the stack resolver treats the configured name as a regular
expression matched with re.match semantics: anchored at the start, a match
of any prefix suffices (not full-match), all matching identifiers are kept
in backend order (the filter result is a sublist with the exact membership
condition), and on the concrete data the pattern prod- selects exactly
prod-web and prod-db while the pattern web matches neither prod-web nor
staging-web. -/
theorem c5_anchored_prefix_regex_matching :
    (reCompile "prod-").map
        (fun r => filter_match r ["prod-web", "prod-db", "staging-web"]) =
      .ok ["prod-web", "prod-db"] ∧
    (reCompile "web").map
        (fun r => (reMatchB r "prod-web", reMatchB r "staging-web")) =
      .ok (false, false) ∧
    (∀ (r : Regex) (stks : List String), List.Sublist (filter_match r stks) stks) ∧
    (∀ (r : Regex) (stks : List String) (s : String),
      s ∈ filter_match r stks ↔ s ∈ stks ∧ reMatchB r s = true) ∧
    (∀ (r : Regex) (s : String),
      reMatchB r s = true ↔
        ∃ n, n ≤ s.data.length ∧ matchesExact r (s.data.take n) = true) := by
  refine ⟨by decide, by decide, ?_, ?_, ?_⟩
  · intro r stks
    exact List.filter_sublist _
  · intro r stks s
    simp [filter_match, List.mem_filter]
  · intro r s
    simp [reMatchB, List.any_eq_true, List.mem_range, Nat.lt_succ_iff]

/-- C6: a payload entry whose Value field is absent (hence falsy) is skipped
with only a printed message, and the loop continues with the remaining
entries unchanged; concretely, a payload whose first entry has no Value and
whose second entry is well-formed still yields the second entry's decoded
resources, with the skip message recorded. -/
theorem c6_missing_value_entry_skipped :
    (∀ (decode : Decode) (e : Val) (rest : List Val) (k v : Val),
      vGetAttr e "Key" = .ok k → vGetAttr e "Value" = .ok v → truthy v = false →
      resourcesLoop decode (e :: rest) =
        ("Missing stack data ..." :: (resourcesLoop decode rest).1,
          (resourcesLoop decode rest).2)) ∧
    (get_resources c1B tFetch6 tDecode [] "s1").res =
      .ok (.list [.dict [("type", .str "ansible_host"),
        ("instances", .list [tInst "node1" "C"])]]) ∧
    (get_resources c1B tFetch6 tDecode [] "s1").warns = ["Missing stack data ..."] := by
  refine ⟨?_, by decide, by decide⟩
  intro decode e rest k v hk hv ht
  cases hrec : resourcesLoop decode rest with
  | mk ws r =>
      simp [resourcesLoop, hk, hv, ht, hrec]

/-- C6 witness: the skip part applied to a concrete entry without a Value
field. -/
theorem c6_witness_missing_value :
    resourcesLoop tDecode [.dict [("Key", .str "k0")]] =
      ("Missing stack data ..." :: (resourcesLoop tDecode []).1,
        (resourcesLoop tDecode []).2) :=
  c6_missing_value_entry_skipped.1 tDecode (.dict [("Key", .str "k0")]) []
    (.str "k0") .null (by decide) (by decide) (by decide)

/-- C7 counterexample: a resource query whose fetch succeeds but whose
payload holds no valued entry returns None WITHOUT caching it, and the
identical later call performs another fetch instead of returning a cached
value, contrary to the claim that every successful fetch result is cached
and never re-fetched. -/
theorem c7_counterexample_empty_payload_not_cached :
    (get_resources c1B tFetch7 tDecode [] "s1").res = .ok .null ∧
    (get_resources c1B tFetch7 tDecode [] "s1").fetches = 1 ∧
    (get_resources c1B tFetch7 tDecode [] "s1").cache = [] ∧
    (get_resources c1B tFetch7 tDecode
      (get_resources c1B tFetch7 tDecode [] "s1").cache "s1").fetches = 1 := by
  decide

/-- C7 amended: a call whose URL is already cached returns the cached value
with no fetch; existing cache entries are never overwritten or invalidated
by either method; a successful get_stacks result is always cached under its
URL, and a successful get_resources result is cached unless it is the None
produced by a payload with no valued entry, which leaves the cache
untouched (and is therefore re-fetched by a later identical call). -/
theorem c7_amended_cache_write_once :
    (∀ (b : ConsulB) (fetch : Fetch) (decode : Decode) (cache : Cache)
      (path url : String) (v : Val),
      res_url b path = .ok url → sGet cache url = some v →
      get_resources b fetch decode cache path = ⟨.ok v, cache, 0, []⟩) ∧
    (∀ (b : ConsulB) (fetch : Fetch) (cache : Cache) (url : String) (v : Val),
      stacks_url b = .ok url → sGet cache url = some v →
      get_stacks b fetch cache = ⟨.ok v, cache, 0, []⟩) ∧
    (∀ (b : ConsulB) (fetch : Fetch) (decode : Decode) (cache : Cache)
      (path k : String) (v : Val),
      sGet cache k = some v →
      sGet (get_resources b fetch decode cache path).cache k = some v) ∧
    (∀ (b : ConsulB) (fetch : Fetch) (cache : Cache) (k : String) (v : Val),
      sGet cache k = some v →
      sGet (get_stacks b fetch cache).cache k = some v) ∧
    (∀ (b : ConsulB) (fetch : Fetch) (decode : Decode) (cache : Cache)
      (path url : String) (v : Val),
      res_url b path = .ok url → sGet cache url = none →
      (get_resources b fetch decode cache path).res = .ok v →
      sGet (get_resources b fetch decode cache path).cache url = some v ∨
        (v = .null ∧ (get_resources b fetch decode cache path).cache = cache)) ∧
    (∀ (b : ConsulB) (fetch : Fetch) (cache : Cache) (url : String) (v : Val),
      stacks_url b = .ok url → sGet cache url = none →
      (get_stacks b fetch cache).res = .ok v →
      sGet (get_stacks b fetch cache).cache url = some v) :=
  ⟨fun b f d c p u v hu hc => get_resources_cache_hit b f d c p hu hc,
   fun b f c u v hu hc => get_stacks_cache_hit b f c hu hc,
   fun b f d c p k v h => get_resources_cache_preserve b f d c p h,
   fun b f c k v h => get_stacks_cache_preserve b f c h,
   fun b f d c p u v hu hm hok => get_resources_success_cached b f d c p hu hm hok,
   fun b f c u v hu hm hok => get_stacks_success_cached b f c hu hm hok⟩

/-- C7 witness: the cache-hit part applied to a concrete pre-filled cache:
the call returns the cached value, leaves the cache unchanged and performs
zero fetches. -/
theorem c7_witness_cache_hit :
    get_resources c1B tFetch7 tDecode [(resURL "s1", .str "x")] "s1" =
      ⟨.ok (.str "x"), [(resURL "s1", .str "x")], 0, []⟩ :=
  c7_amended_cache_write_once.1 c1B tFetch7 tDecode [(resURL "s1", .str "x")]
    "s1" (resURL "s1") (.str "x") (by decide) (by decide)

/-- C8: every host record in a successful expand_conf result is tagged with
some resolved stack identifier path and the effective driver name (stack
override, else backend default): the record carries a terraform annotation
holding exactly that stack and driver, and its vars mapping contains
terraform_stack bound to the stack identifier and terraform_driver bound to
the driver name. -/
theorem c8_records_tagged_with_stack_and_driver
    (st : StackObj) (fetch : Fetch) (decode : Decode) (cache : Cache)
    (ws : List String) (ret : List (Val × Val)) (cache2 : Cache)
    (heq : expand_conf st fetch decode cache = (ws, .ok ret, cache2)) :
    ∀ hn hd, (hn, hd) ∈ ret →
      ∃ paths0 path stack_type backend_type,
        (expand_paths st fetch cache).1 = .ok paths0 ∧ path ∈ paths0 ∧
        backend_config_driver st.backend = .ok backend_type ∧
        sIndex st.config "driver" = .ok stack_type ∧
        taggedWith path (effective_driver stack_type backend_type) hd := by
  intro hn hd hmem
  cases hep : expand_paths st fetch cache with
  | mk pr pc =>
      cases pr with
      | error e =>
          simp only [expand_conf, hep] at heq
          injection heq with h1 h2
          injection h2 with h3 h4
          cases h3
      | ok paths =>
          simp only [expand_conf, hep] at heq
          have htag := pathsLoop_tagged st fetch decode paths paths pc [] ws ret cache2
            (fun x hx => hx) heq
            (fun hn2 hd2 hm2 => absurd hm2 (List.not_mem_nil _)) hn hd hmem
          simp only [stackTagged] at htag
          obtain ⟨path, stt, bt, hpm, hbd, hsd, ht⟩ := htag
          exact ⟨paths, path, stt, bt, by simp [hep], hpm, hbd, hsd, ht⟩

/-- C8 witness: the tagging theorem applied to the concrete stack s1 run,
at the record node1. -/
theorem c8_witness_tagged_record :
    ∃ paths0 path stack_type backend_type,
      (expand_paths tStackObj1 tFetch4 []).1 = .ok paths0 ∧ path ∈ paths0 ∧
      backend_config_driver tStackObj1.backend = .ok backend_type ∧
      sIndex tStackObj1.config "driver" = .ok stack_type ∧
      taggedWith path (effective_driver stack_type backend_type) tHostA :=
  c8_records_tagged_with_stack_and_driver tStackObj1 tFetch4 tDecode []
    ["Duplicate host found for: node1"]
    [(.str "node1", tHostA)]
    [("http://127.0.0.1:8600/v1/kv/qq/", .list [.str "s1", .str "s2"]),
     ("http://127.0.0.1:8600/v1/kv/qq/s1",
       .list [.dict [("type", .str "ansible_host"),
         ("instances", .list [tInst "node1" "A", tInst "node1" "B"])]])]
    (by decide) (.str "node1") tHostA (by decide)

/-- C9 counterexample: with an empty-string per-stack driver (falsy) and an
empty-string backend default, the computed effective driver is None, not
the backend's configured default, refuting the claim that every falsy
per-stack value yields the backend default. -/
theorem c9_counterexample_falsy_backend_default :
    truthy (Val.str "") = false ∧
    ¬ effective_driver (.str "") (.str "") = .str "" ∧
    effective_driver (.str "") (.str "") = .null := by
  decide

/-- C9 amended: a falsy per-stack driver falls back to the backend default
only when that default is truthy, and to None when both are falsy; a truthy
per-stack value always wins; and a stack definition without a driver key
gets None as its merged driver value (so the fallback applies to absent
overrides as well). -/
theorem c9_amended_falsy_driver_fallback :
    (∀ stack_type backend_type : Val, truthy stack_type = false →
      effective_driver stack_type backend_type =
        (if truthy backend_type then backend_type else .null)) ∧
    (∀ stack_type backend_type : Val, truthy stack_type = true →
      effective_driver stack_type backend_type = stack_type) ∧
    (∀ (d : List (String × Val)) (idx : Int), sMem d "driver" = false →
      sGet (sUpdate (sUpdate [] stack_default_config)
        (sSet (sUpdate (sUpdate [] default_stack_conf) d) "index" (.num idx)))
        "driver" = some .null) := by
  refine ⟨?_, ?_, ?_⟩
  · intro st bt h
    simp [effective_driver, pyOr, h]
  · intro st bt h
    simp [effective_driver, pyOr, h]
  · intro d idx h
    have h1 : sMem (sSet (sUpdate (sUpdate [] default_stack_conf) d) "index"
        (.num idx)) "driver" = false := by
      rw [sMem_sSet_other (by decide) _ _]
      exact sMem_sUpdate_false d (sUpdate [] default_stack_conf) (by decide) h
    rw [sGet_sUpdate_not_set _ (sUpdate [] stack_default_config) h1]
    decide

/-- C9 witness: the fallback applied at concrete driver values: absent
(None) falls back to a truthy backend default, empty string with a falsy
default yields None, a truthy override wins, and a stack definition without
a driver key indeed carries None after the config merge. -/
theorem c9_witness_fallback :
    effective_driver .null (.str "ansible_host") = .str "ansible_host" ∧
    effective_driver (.str "") .null = .null ∧
    effective_driver (.str "custom") (.str "ansible_host") = .str "custom" ∧
    sGet (sUpdate (sUpdate [] stack_default_config)
      (sSet (sUpdate (sUpdate [] default_stack_conf)
        [("name", .str "s1"), ("backend", .str "c1")]) "index" (.num 0)))
      "driver" = some .null := by
  refine ⟨?_, ?_, ?_, ?_⟩
  · rw [c9_amended_falsy_driver_fallback.1 .null (.str "ansible_host") (by decide)]
    decide
  · rw [c9_amended_falsy_driver_fallback.1 (.str "") .null (by decide)]
    decide
  · exact c9_amended_falsy_driver_fallback.2.1 (.str "custom")
      (.str "ansible_host") (by decide)
  · exact c9_amended_falsy_driver_fallback.2.2
      [("name", .str "s1"), ("backend", .str "c1")] 0 (by decide)

/-- C10: the ansible_host driver's host loop skips every instance whose
attributes mapping is absent or empty without raising and without creating
a record, so a list made only of such instances extracts to the empty host
map (and no messages). -/
theorem c10_absent_or_empty_attributes_skipped :
    ∀ hosts : List Val,
      (∀ h ∈ hosts, ∃ kvs, h = Val.dict kvs ∧
        (sGet kvs "attributes" = none ∨ sGet kvs "attributes" = some (.dict []))) →
      loop_over_hosts hosts = ([], .ok []) :=
  fun hosts h => ansible_loop_skip_all hosts [] h

/-- C10 witness: three concrete instances (an empty dict, an instance with
an empty attributes dict, an instance with no attributes key) all skipped. -/
theorem c10_witness_skip :
    loop_over_hosts [.dict [], .dict [("attributes", .dict [])],
      .dict [("other", .str "y")]] = ([], .ok []) :=
  c10_absent_or_empty_attributes_skipped _ (by
    intro h hm
    simp only [List.mem_cons, List.not_mem_nil, or_false] at hm
    rcases hm with rfl | rfl | rfl
    · exact ⟨[], rfl, Or.inl (by decide)⟩
    · exact ⟨_, rfl, Or.inr (by decide)⟩
    · exact ⟨_, rfl, Or.inl (by decide)⟩)

end TF
